import Mathlib

/-!
Verification of the speech-matching and dialogue-progression engine of the
SLL repository (a browser language-learning game).  The JavaScript sources
are embedded shallowly: strings become `List Char`, the dynamic-programming
tables become row-by-row recursive functions, JavaScript numbers used for
scores become exact rationals (`ℚ`), and the stateful dialogue handlers
become explicit state-passing functions.  All definitions are translated
from the source files (`js/dialogue.js`, `js/dialogue/dialogue-system.js`,
`js/dialogue/speech-recognition.js`, `js/config.js`, and the game-manager
and part_010 DialogueManager variants).
-/

namespace SLL

/-- Phrases and transcripts are sequences of characters. -/
abbrev Str := List Char

/-! ## Reference definition of Levenshtein distance

`lev` is the textbook recursive Levenshtein distance, used as the
mathematical reference point for the two dynamic-programming
implementations in the source.  It consumes both lists from the head. -/

def lev : Str → Str → Nat
  | [], ys => ys.length
  | _ :: xs, [] => xs.length + 1
  | x :: xs, y :: ys =>
      if x = y then lev xs ys
      else min (lev xs ys) (min (lev xs (y :: ys)) (lev (x :: xs) ys)) + 1
termination_by a b => a.length + b.length
decreasing_by
  all_goals simp [List.length_cons]
  all_goals omega

/-! ## Edit scripts

`Edits a b n` holds when an alignment of `a` with `b` uses exactly `n`
single-character edit operations (substitute, delete from `a`, insert into
`a`); matched equal characters are free.  This is the standard
formalisation of "n insertions, deletions and substitutions transform `a`
into `b`". -/

inductive Edits : Str → Str → Nat → Prop
  | nil : Edits [] [] 0
  | keep {xs ys n} (x : Char) : Edits xs ys n → Edits (x :: xs) (x :: ys) n
  | subst {xs ys n} (x y : Char) : Edits xs ys n → Edits (x :: xs) (y :: ys) (n + 1)
  | del {xs ys n} (x : Char) : Edits xs ys n → Edits (x :: xs) ys (n + 1)
  | ins {xs ys n} (y : Char) : Edits xs ys n → Edits xs (y :: ys) (n + 1)

namespace DialogueManager

/-! ## `DialogueManager.levenshteinDistance` (js/dialogue.js lines 292-319)

The method fills a table `dp` of size `(m+1) × (n+1)` row by row:
`dp[i][0] = i`, `dp[0][j] = j`, and
`dp[i][j] = dp[i-1][j-1]` when `s1[i-1] === s2[j-1]`, else
`Math.min(dp[i-1][j-1] + 1, dp[i-1][j] + 1, dp[i][j-1] + 1)`.
`dpRow s1 s2 i prev` is row `i+1` computed from row `i` (`prev`), and
`dpTable s1 s2 i` is row `i`; the method returns `dp[m][n]`. -/

def dpRow (s1 s2 : Str) (i : Nat) (prev : Nat → Nat) : Nat → Nat
  | 0 => i + 1
  | j + 1 =>
      if s1[i]? = s2[j]? then prev j
      else min (min (prev j + 1) (prev (j + 1) + 1)) (dpRow s1 s2 i prev j + 1)

def dpTable (s1 s2 : Str) : Nat → Nat → Nat
  | 0 => fun j => j
  | i + 1 => dpRow s1 s2 i (dpTable s1 s2 i)

def levenshteinDistance (s1 s2 : Str) : Nat :=
  dpTable s1 s2 s1.length s2.length

end DialogueManager

namespace TextMatching

/-! ## `levenshteinDistance` (js/dialogue.js lines 428-452, text-matching module)

This variant fills `matrix` with rows indexed by `b` and columns by `a`:
`matrix[i][0] = i`, `matrix[0][j] = j`, and
`matrix[i][j] = Math.min(matrix[i-1][j] + 1, matrix[i][j-1] + 1,
matrix[i-1][j-1] + cost)` with `cost = (a[j-1] === b[i-1] ? 0 : 1)`;
the function returns `matrix[b.length][a.length]`. -/

def mRow (a b : Str) (i : Nat) (prev : Nat → Nat) : Nat → Nat
  | 0 => i + 1
  | j + 1 =>
      min (min (prev (j + 1) + 1) (mRow a b i prev j + 1))
        (prev j + if a[j]? = b[i]? then 0 else 1)

def matrix (a b : Str) : Nat → Nat → Nat
  | 0 => fun j => j
  | i + 1 => mRow a b i (matrix a b i)

def levenshteinDistance (a b : Str) : Nat :=
  matrix a b b.length a.length

/-! ## `calculateSimilarity` (js/dialogue.js lines 461-480)

`normalize` is the caller-side normalisation
`s.toLowerCase().replace(/[.,\/#!$%\^&\*;:{}=\-_`~()]/g, "")`: lower-case,
then delete exactly the characters of that character class (the braces and
the backtick are written via `Char.ofNat`). -/

def punctuationChars : Str :=
  ['.', ',', '/', '#', '!', '$', '%', '^', '&', '*', ';', ':',
    Char.ofNat 123, Char.ofNat 125, '=', '-', '_', Char.ofNat 96, '~', '(', ')']

def normalize (s : Str) : Str :=
  (s.map Char.toLower).filter (fun c => !(punctuationChars.contains c))

/-- Similarity score in [0,1]: 1 when both normalised strings are empty,
0 when exactly one is, else `1 - distance / max(len a, len b)`.
JavaScript numbers are embedded as exact rationals. -/
def calculateSimilarity (str1 str2 : Str) : ℚ :=
  let a := normalize str1
  let b := normalize str2
  if a.length == 0 && b.length == 0 then 1
  else if a.length == 0 || b.length == 0 then 0
  else
    let distance := levenshteinDistance a b
    let maxLength := max a.length b.length
    1 - (distance : ℚ) / (maxLength : ℚ)

/-! ## `findMatchingWords` and `findBestMatch` (js/dialogue.js lines 488-567) -/

/-- Split on runs of whitespace, as `.split(/\s+/)` does.  JavaScript's
split also yields one empty boundary token when the string starts or ends
with whitespace; the word-matching code only ever uses tokens of length at
least 3, so the empty tokens are dropped here. -/
def splitWS (s : Str) : List Str :=
  (List.splitOnP Char.isWhitespace s).filter (fun w => !w.isEmpty)

/-- `hay.includes(needle)` of JavaScript: `needle` occurs contiguously in
`hay`. -/
def includesSub : Str → Str → Bool
  | [], needle => needle.isEmpty
  | c :: rest, needle => needle.isPrefixOf (c :: rest) || includesSub rest needle

/-- The count `findMatchingWords(input, candidates)[i].count` records for
the candidate at index `i`: over every transcript word of length ≥ 3
(shorter words are skipped) and every word of the candidate, one hit when
`candidateWord.includes(word) || word.includes(candidateWord)`. -/
def matchCountFor (input candidate : Str) : Nat :=
  let words := splitWS (input.map Char.toLower)
  let candidateWords := splitWS (candidate.map Char.toLower)
  (words.map (fun word =>
      if word.length < 3 then 0
      else candidateWords.countP
        (fun candidateWord =>
          includesSub candidateWord word || includesSub word candidateWord))).sum

structure MatchResult where
  text : Str
  index : Int
  score : ℚ
deriving DecidableEq

/-- The combined score per option: the base similarity, plus
`count * 0.1` capped at `1.0` when the option has at least one recorded
word match (`findBestMatch`, lines 531-546; the per-index lookup
`wordMatches[i]` is fused into the map over the options). -/
def combinedScores (input : Str) (options : List Str) : List ℚ :=
  options.map (fun option =>
    let score := calculateSimilarity input option
    let c := matchCountFor input option
    if 0 < c then min (score + (c : ℚ) * (1 / 10)) 1 else score)

/-- One step of the best-match loop (lines 549-557): strictly greater
scores replace the running best, starting from `bestScore = -1`,
`bestIndex = -1`. -/
def bestStep (best : Int × ℚ) (p : Nat × ℚ) : Int × ℚ :=
  if p.2 > best.2 then ((p.1 : Int), p.2) else best

def bestLoop (combined : List ℚ) : Int × ℚ :=
  combined.enum.foldl bestStep (-1, -1)

/-- `findBestMatch(input, options)` (lines 524-567).  A `none` input is
JavaScript's null/undefined; `!input` is also true for the empty string. -/
def findBestMatch (input : Option Str) (options : List Str) : MatchResult :=
  match input with
  | none => { text := [], index := -1, score := 0 }
  | some inp =>
    if inp.isEmpty || options.isEmpty then { text := [], index := -1, score := 0 }
    else
      let combined := combinedScores inp options
      let best := bestLoop combined
      { text := if 0 ≤ best.1 then options.getD best.1.toNat [] else [],
        index := best.1,
        score := best.2 }

end TextMatching

/-- `MATCH_THRESHOLD` (js/config.js line 30): percentage match needed to
proceed. -/
def MATCH_THRESHOLD : ℚ := 60

namespace DialogueManager

/-! ## `DialogueManager.handleSpeechInput` (js/dialogue.js lines 214-290) -/

/-- The match percentage of lines 218-223:
`((target.length - distance) / target.length) * 100` on the lower-cased
strings, with `distance = levenshteinDistance(transcriptLower, target)`. -/
def matchPercentage (transcript targetPhrase : Str) : ℚ :=
  let target := targetPhrase.map Char.toLower
  let transcriptLower := transcript.map Char.toLower
  let distance := levenshteinDistance transcriptLower target
  (((target.length : ℚ) - (distance : ℚ)) / (target.length : ℚ)) * 100

/-- The percentage the input indicator displays (line 267):
`Math.round(matchPercentage)`, i.e. `⌊x + 1/2⌋`. -/
def displayedMatch (transcript targetPhrase : Str) : Int :=
  ⌊matchPercentage transcript targetPhrase + 1 / 2⌋

structure DMState where
  currentStep : Nat
  isListening : Bool
deriving DecidableEq

/-- The state effect of `handleSpeechInput` (lines 271-289): when the match
percentage reaches 60, listening stops and `showNextStep` is scheduled
(the returned flag); otherwise nothing changes. -/
def handleSpeechInput (s : DMState) (transcript targetPhrase : Str) :
    DMState × Bool :=
  if matchPercentage transcript targetPhrase ≥ 60 then
    ({ s with isListening := false }, true)
  else (s, false)

end DialogueManager

namespace DialogueSystem

/-! ## The branching dialogue system (js/dialogue/dialogue-system.js) -/

structure DialogueOption where
  text : Str
  next : String
deriving DecidableEq

structure DialogueNode where
  text : Str
  options : List DialogueOption
deriving DecidableEq

/-- The static `dialogueData.vendor` table (lines 22-63). -/
def vendorDialogue : String → Option DialogueNode
  | "greeting" => some
      { text := "Hello there! Welcome to my shop. What would you like to see?".data,
        options := [
          ⟨"Show me your weapons".data, "weapons"⟩,
          ⟨"I'd like to see armor".data, "armor"⟩,
          ⟨"What potions do you have?".data, "potions"⟩,
          ⟨"No thanks, just browsing".data, "farewell"⟩] }
  | "weapons" => some
      { text := "I have swords, bows, and daggers. What interests you?".data,
        options := [
          ⟨"Tell me about your swords".data, "swords"⟩,
          ⟨"Show me your bows".data, "bows"⟩,
          ⟨"Let's see the daggers".data, "daggers"⟩,
          ⟨"Actually, I'll look at something else".data, "greeting"⟩] }
  | "armor" => some
      { text := "I have light, medium, and heavy armor sets. Which would you prefer?".data,
        options := [
          ⟨"Light armor for me".data, "light_armor"⟩,
          ⟨"Medium armor sounds good".data, "medium_armor"⟩,
          ⟨"Heavy armor is what I need".data, "heavy_armor"⟩,
          ⟨"I'll check something else".data, "greeting"⟩] }
  | "potions" => some
      { text := "Health, mana, and strength potions are available. What do you need?".data,
        options := [
          ⟨"Health potions please".data, "health_potions"⟩,
          ⟨"I need mana potions".data, "mana_potions"⟩,
          ⟨"Strength potions sound useful".data, "strength_potions"⟩,
          ⟨"Let me see something else".data, "greeting"⟩] }
  | "farewell" => some
      { text := "Alright then, come back if you need anything!".data, options := [] }
  | _ => none

/-- The static `dialogueData.cat` table (lines 64-100). -/
def catDialogue : String → Option DialogueNode
  | "greeting" => some
      { text := "Meow! I'm not just any cat - I'm a magical cat! Want to see a trick?".data,
        options := [
          ⟨"Yes, show me a trick".data, "magic_trick"⟩,
          ⟨"Tell me about yourself".data, "about"⟩,
          ⟨"No thanks, just passing by".data, "farewell"⟩] }
  | "magic_trick" => some
      { text := "Abracadabra! *The cat's eyes glow and small sparkles appear around its paws*".data,
        options := [
          ⟨"That's amazing!".data, "happy"⟩,
          ⟨"Is that all you can do?".data, "offended"⟩,
          ⟨"How did you learn magic?".data, "history"⟩] }
  | "about" => some
      { text := "I was an ordinary cat until a wizard's experiment went wrong. Now I can talk and do magic!".data,
        options := [
          ⟨"That's fascinating".data, "history"⟩,
          ⟨"Do you miss being normal?".data, "normal"⟩,
          ⟨"I should go now".data, "farewell"⟩] }
  | "history" => some
      { text := "I've been studying magic for three cat-years now. That's about 15 in human years!".data,
        options := [
          ⟨"What else can you do?".data, "magic_trick"⟩,
          ⟨"I'll see you around".data, "farewell"⟩] }
  | "farewell" => some
      { text := "Meow! Come back anytime, human!".data, options := [] }
  | _ => none

/-- The two-level `dialogueData` lookup: character id, then step id. -/
def characterDialogue : String → Option (String → Option DialogueNode)
  | "vendor" => some vendorDialogue
  | "cat" => some catDialogue
  | _ => none

def dialogueData (charId stepId : String) : Option DialogueNode :=
  (characterDialogue charId).bind (fun steps => steps stepId)

/-- The decision core of `processUserResponse` (lines 310-338), given the
current node: no options means no transition; otherwise the best match is
computed over the option texts, and a transition to the matched option's
`next` happens exactly when `bestMatch.score > 0.6`. -/
def processUserResponse (dialogue : DialogueNode) (transcript : Str) :
    Option String :=
  if dialogue.options.isEmpty then none
  else
    let options := dialogue.options.map (·.text)
    let bestMatch := TextMatching.findBestMatch (some transcript) options
    if bestMatch.score > 0.6 then
      some ((dialogue.options.getD bestMatch.index.toNat ⟨[], ""⟩).next)
    else none

/-- `processUserResponse` including the `dialogueData` lookup of its
enclosing state (a missing node returns without transition). -/
def processUserResponseAt (charId stepId : String) (transcript : Str) :
    Option String :=
  (dialogueData charId stepId).bind (fun dialogue => processUserResponse dialogue transcript)

/-- The game-manager fields `startDialogue`/`endDialogue` touch
(js/unnamed/part_000, `gameState`). -/
structure GameState where
  dialogueCooldown : Bool
  isDialogueActive : Bool
  activeCharacter : Option String
  speechEnabled : Bool
deriving DecidableEq

/-- The module-local dialogue state of dialogue-system.js (lines 103-107)
together with the game state it mutates. -/
structure SystemState where
  gameState : GameState
  currentCharacter : Option String
  currentDialogueStep : Option String
  isInDialogue : Bool
  recognitionActive : Bool
deriving DecidableEq

/-- `startDialogue(character)` (lines 133-179).  The player-proximity check
reads positions owned by the rendering layer, so it enters as the boolean
`playerCloseEnough`; everything else follows the source: cooldown guard,
proximity guard, dialogue-data guard, then the state updates
`setDialogueActive(true)`, `setActiveCharacter`, `setDialogueCooldown(true)`,
the module-local assignments, and `startSpeechRecognition` when speech is
enabled. -/
def startDialogue (s : SystemState) (charId : String) (playerCloseEnough : Bool) :
    SystemState :=
  if s.gameState.dialogueCooldown then s
  else if !playerCloseEnough then s
  else if (characterDialogue charId).isNone then s
  else
    { gameState :=
        { s.gameState with
          isDialogueActive := true,
          activeCharacter := some charId,
          dialogueCooldown := true },
      currentCharacter := some charId,
      currentDialogueStep := some "greeting",
      isInDialogue := true,
      recognitionActive := if s.gameState.speechEnabled then true else s.recognitionActive }

end DialogueSystem

namespace SpeechRecognition

/-- The `recognition.onerror` handler of
js/dialogue/speech-recognition.js (lines 152-164): a restart is scheduled
exactly when `event.error !== 'aborted' && event.error !== 'not-allowed'
&& isRecognizing`. -/
def onErrorSchedulesRestart (error : String) (isRecognizing : Bool) : Bool :=
  error != "aborted" && error != "not-allowed" && isRecognizing

end SpeechRecognition

namespace DialogueManagerV2

/-! ## The DialogueManager variant of js/unnamed/part_010 (vendor-phrase flow) -/

/-- `isUserTurn(step)` (lines 289-291); js/dialogue.js line 336 computes
the same parity inline in `showNextStep`. -/
def isUserTurn (step : Nat) : Bool := step % 2 == 0

structure DialogueEntry where
  motherPhrase : Str
  targetPhrase : Str
deriving DecidableEq

/-- The mutable manager state used by `showNextStep` and
`handleReturnClick`: the loaded dialogue, the step counter, the `data-step`
attribute of each dialogue box in DOM order, the listening flag, and the
phrase speech recognition currently matches against. -/
structure ManagerState where
  dialogueHistory : List DialogueEntry
  currentStep : Nat
  dialogueBoxes : List Nat
  isListening : Bool
  currentTargetPhrase : Option Str
deriving DecidableEq

inductive StepAction where
  | completed
  | awaitUser
  | autoPlay
deriving DecidableEq

/-- What `showNextStep` (lines 435-497) does at the current step: past the
end of the history the sequence is completed; otherwise
`isUserTurn = currentStep % 2 === 0` selects between waiting for the
player's utterance (user box + recognition) and auto-playing the line and
advancing. -/
def showNextStepAction (s : ManagerState) : StepAction :=
  if s.currentStep ≥ s.dialogueHistory.length then .completed
  else if s.currentStep % 2 == 0 then .awaitUser
  else .autoPlay

/-- `handleReturnClick` (lines 240-287) for a click on the box at position
`boxIdx` of the DOM order: stop listening, remove every box after the
clicked one, set `currentStep` to the clicked box's step and, when that
step is a user turn with a loaded history entry, restore its target phrase
and start listening again. -/
def handleReturnClick (s : ManagerState) (boxIdx : Nat) : ManagerState :=
  match s.dialogueBoxes[boxIdx]? with
  | none => s
  | some targetStep =>
    let s1 : ManagerState := { s with isListening := false }
    let s2 : ManagerState :=
      { s1 with
        dialogueBoxes := s1.dialogueBoxes.take (boxIdx + 1),
        currentStep := targetStep }
    if isUserTurn targetStep then
      match s.dialogueHistory[targetStep]? with
      | some item =>
          { s2 with
            currentTargetPhrase := some item.targetPhrase,
            isListening := true }
      | none => s2
    else s2

end DialogueManagerV2

/-! ## Theorems -/

theorem lev_nil_left (ys : Str) : lev [] ys = ys.length := by
  simp [lev]

theorem lev_nil_right (xs : Str) : lev xs [] = xs.length := by
  cases xs <;> simp [lev]

theorem lev_cons_cons (x y : Char) (xs ys : Str) :
    lev (x :: xs) (y :: ys) =
      if x = y then lev xs ys
      else min (lev xs ys) (min (lev xs (y :: ys)) (lev (x :: xs) ys)) + 1 := by
  simp [lev]

/-- The four one-step comparison facts for `lev`: dropping or adding a
head character on either side changes the distance by at most one.
Proved together by strong induction on the total length. -/
theorem lev_cluster : ∀ (N : Nat) (xs ys : Str), xs.length + ys.length = N →
    (∀ x, lev (x :: xs) ys ≤ lev xs ys + 1) ∧
    (∀ y, lev xs (y :: ys) ≤ lev xs ys + 1) ∧
    (∀ x, lev xs ys ≤ lev (x :: xs) ys + 1) ∧
    (∀ y, lev xs ys ≤ lev xs (y :: ys) + 1) := by
  intro N
  induction N using Nat.strong_induction_on with
  | _ N IH =>
    intro xs ys hN
    refine ⟨?_, ?_, ?_, ?_⟩
    · -- lev (x :: xs) ys ≤ lev xs ys + 1
      intro x
      cases ys with
      | nil => simp [lev_nil_right]
      | cons y ys' =>
        rw [lev_cons_cons]
        by_cases hxy : x = y
        · simp only [hxy, if_true, if_pos rfl]
          have h4 := (IH (xs.length + ys'.length) (by simp at hN; omega)
            xs ys' rfl).2.2.2 y
          omega
        · rw [if_neg hxy]
          omega
    · -- lev xs (y :: ys) ≤ lev xs ys + 1
      intro y
      cases xs with
      | nil => simp [lev_nil_left]
      | cons x xs' =>
        rw [lev_cons_cons]
        by_cases hxy : x = y
        · rw [if_pos hxy]
          have h3 := (IH (xs'.length + ys.length) (by simp at hN; omega)
            xs' ys rfl).2.2.1 x
          omega
        · rw [if_neg hxy]
          omega
    · -- lev xs ys ≤ lev (x :: xs) ys + 1
      intro x
      cases ys with
      | nil => simp [lev_nil_right]; omega
      | cons y ys' =>
        rw [lev_cons_cons]
        have h2 := (IH (xs.length + ys'.length) (by simp at hN; omega)
          xs ys' rfl).2.1 y
        by_cases hxy : x = y
        · rw [if_pos hxy]
          omega
        · rw [if_neg hxy]
          have h3 := (IH (xs.length + ys'.length) (by simp at hN; omega)
            xs ys' rfl).2.2.1 x
          omega
    · -- lev xs ys ≤ lev xs (y :: ys) + 1
      intro y
      cases xs with
      | nil => simp [lev_nil_left]; omega
      | cons x xs' =>
        rw [lev_cons_cons]
        have h1 := (IH (xs'.length + ys.length) (by simp at hN; omega)
          xs' ys rfl).1 x
        by_cases hxy : x = y
        · rw [if_pos hxy]
          omega
        · rw [if_neg hxy]
          have h4 := (IH (xs'.length + ys.length) (by simp at hN; omega)
            xs' ys rfl).2.2.2 y
          omega

theorem lev_del_le (x : Char) (xs ys : Str) : lev (x :: xs) ys ≤ lev xs ys + 1 :=
  (lev_cluster _ xs ys rfl).1 x

theorem lev_ins_le (y : Char) (xs ys : Str) : lev xs (y :: ys) ≤ lev xs ys + 1 :=
  (lev_cluster _ xs ys rfl).2.1 y

theorem lev_le_del (x : Char) (xs ys : Str) : lev xs ys ≤ lev (x :: xs) ys + 1 :=
  (lev_cluster _ xs ys rfl).2.2.1 x

theorem lev_le_ins (y : Char) (xs ys : Str) : lev xs ys ≤ lev xs (y :: ys) + 1 :=
  (lev_cluster _ xs ys rfl).2.2.2 y

theorem lev_sub_le (x y : Char) (xs ys : Str) :
    lev (x :: xs) (y :: ys) ≤ lev xs ys + 1 := by
  rw [lev_cons_cons]
  by_cases hxy : x = y
  · rw [if_pos hxy]; omega
  · rw [if_neg hxy]; omega

theorem edits_nil_left : ∀ ys : Str, Edits [] ys ys.length := by
  intro ys
  induction ys with
  | nil => exact Edits.nil
  | cons y ys ih => exact Edits.ins y ih

theorem edits_nil_right : ∀ xs : Str, Edits xs [] xs.length := by
  intro xs
  induction xs with
  | nil => exact Edits.nil
  | cons x xs ih => exact Edits.del x ih

/-- There is an edit script of cost `lev xs ys`. -/
theorem edits_of_lev : ∀ (N : Nat) (xs ys : Str), xs.length + ys.length = N →
    Edits xs ys (lev xs ys) := by
  intro N
  induction N using Nat.strong_induction_on with
  | _ N IH =>
    intro xs ys hN
    match xs, ys with
    | [], ys => rw [lev_nil_left]; exact edits_nil_left ys
    | x :: xs, [] =>
      rw [lev_nil_right]; exact edits_nil_right (x :: xs)
    | x :: xs, y :: ys =>
      rw [lev_cons_cons]
      by_cases hxy : x = y
      · rw [if_pos hxy]; subst hxy
        exact Edits.keep x (IH (xs.length + ys.length) (by simp at hN; omega) xs ys rfl)
      · rw [if_neg hxy]
        have hcase : min (lev xs ys) (min (lev xs (y :: ys)) (lev (x :: xs) ys)) = lev xs ys ∨
            min (lev xs ys) (min (lev xs (y :: ys)) (lev (x :: xs) ys)) = lev xs (y :: ys) ∨
            min (lev xs ys) (min (lev xs (y :: ys)) (lev (x :: xs) ys)) = lev (x :: xs) ys := by
          omega
        rcases hcase with h | h | h <;> rw [h]
        · exact Edits.subst x y (IH (xs.length + ys.length) (by simp at hN; omega) xs ys rfl)
        · exact Edits.del x (IH (xs.length + (y :: ys).length) (by simp at hN ⊢; omega)
            xs (y :: ys) rfl)
        · exact Edits.ins y (IH ((x :: xs).length + ys.length) (by simp at hN ⊢; omega)
            (x :: xs) ys rfl)

/-- No edit script costs less than `lev xs ys`. -/
theorem lev_le_edits {xs ys : Str} {n : Nat} (h : Edits xs ys n) : lev xs ys ≤ n := by
  induction h with
  | nil => simp [lev_nil_left]
  | keep x _ ih =>
    rw [lev_cons_cons, if_pos rfl]; exact ih
  | subst x y h ih =>
    rename_i xs' ys' n'
    have := lev_sub_le x y xs' ys'
    omega
  | del x h ih =>
    rename_i xs' ys' n'
    have := lev_del_le x xs' ys'
    omega
  | ins y h ih =>
    rename_i xs' ys' n'
    have := lev_ins_le y xs' ys'
    omega

theorem Edits.snoc_keep {xs ys : Str} {n : Nat} (c : Char) (h : Edits xs ys n) :
    Edits (xs ++ [c]) (ys ++ [c]) n := by
  induction h with
  | nil => exact Edits.keep c Edits.nil
  | keep x _ ih => exact Edits.keep x ih
  | subst x y _ ih => exact Edits.subst x y ih
  | del x _ ih => exact Edits.del x ih
  | ins y _ ih => exact Edits.ins y ih

theorem Edits.snoc_subst {xs ys : Str} {n : Nat} (c d : Char) (h : Edits xs ys n) :
    Edits (xs ++ [c]) (ys ++ [d]) (n + 1) := by
  induction h with
  | nil => exact Edits.subst c d Edits.nil
  | keep x _ ih => exact Edits.keep x ih
  | subst x y _ ih => exact Edits.subst x y ih
  | del x _ ih => exact Edits.del x ih
  | ins y _ ih => exact Edits.ins y ih

theorem Edits.snoc_del {xs ys : Str} {n : Nat} (c : Char) (h : Edits xs ys n) :
    Edits (xs ++ [c]) ys (n + 1) := by
  induction h with
  | nil => exact Edits.del c Edits.nil
  | keep x _ ih => exact Edits.keep x ih
  | subst x y _ ih => exact Edits.subst x y ih
  | del x _ ih => exact Edits.del x ih
  | ins y _ ih => exact Edits.ins y ih

theorem Edits.snoc_ins {xs ys : Str} {n : Nat} (d : Char) (h : Edits xs ys n) :
    Edits xs (ys ++ [d]) (n + 1) := by
  induction h with
  | nil => exact Edits.ins d Edits.nil
  | keep x _ ih => exact Edits.keep x ih
  | subst x y _ ih => exact Edits.subst x y ih
  | del x _ ih => exact Edits.del x ih
  | ins y _ ih => exact Edits.ins y ih

/-- Edit scripts transport along reversal (each operation moves to the
mirrored position). -/
theorem Edits.rev {xs ys : Str} {n : Nat} (h : Edits xs ys n) :
    Edits xs.reverse ys.reverse n := by
  induction h with
  | nil => exact Edits.nil
  | keep x _ ih => simpa [List.reverse_cons] using ih.snoc_keep x
  | subst x y _ ih => simpa [List.reverse_cons] using ih.snoc_subst x y
  | del x _ ih => simpa [List.reverse_cons] using ih.snoc_del x
  | ins y _ ih => simpa [List.reverse_cons] using ih.snoc_ins y

theorem edits_reverse_iff {xs ys : Str} {n : Nat} :
    Edits xs.reverse ys.reverse n ↔ Edits xs ys n := by
  constructor
  · intro h
    simpa using h.rev
  · exact Edits.rev

theorem take_succ_reverse {l : Str} {i : Nat} (h : i < l.length) :
    (l.take (i + 1)).reverse = l[i] :: (l.take i).reverse := by
  rw [List.take_succ, List.getElem?_eq_getElem h]
  simp

/-- The `DialogueManager` table entry `dp[i][j]` is the reference distance
of the reversed prefixes (reversed because the table extends prefixes on
the right while `lev` consumes lists from the head). -/
theorem DialogueManager.dpTable_eq (s1 s2 : Str) :
    ∀ i j, i ≤ s1.length → j ≤ s2.length →
      DialogueManager.dpTable s1 s2 i j =
        lev ((s1.take i).reverse) ((s2.take j).reverse) := by
  intro i
  induction i with
  | zero =>
    intro j _ hj
    simp only [DialogueManager.dpTable, List.take_zero, List.reverse_nil, lev_nil_left]
    simp [Nat.min_eq_left hj]
  | succ i ihi =>
    intro j hi
    induction j with
    | zero =>
      intro _
      simp only [DialogueManager.dpTable, DialogueManager.dpRow, List.take_zero,
        List.reverse_nil, lev_nil_right]
      simp [Nat.min_eq_left hi]
    | succ j ihj =>
      intro hj
      have hi' : i < s1.length := by omega
      have hj' : j < s2.length := by omega
      have e1 := ihi j (by omega) (by omega)
      have e2 := ihi (j + 1) (by omega) hj
      have e3 := ihj (by omega)
      rw [take_succ_reverse hi', take_succ_reverse hj', lev_cons_cons]
      show DialogueManager.dpRow s1 s2 i (DialogueManager.dpTable s1 s2 i) (j + 1) = _
      rw [DialogueManager.dpRow]
      rw [List.getElem?_eq_getElem hi', List.getElem?_eq_getElem hj']
      have e3' : DialogueManager.dpRow s1 s2 i (DialogueManager.dpTable s1 s2 i) j =
          lev ((s1.take (i + 1)).reverse) ((s2.take j).reverse) := e3
      rw [e1, e2, e3']
      rw [take_succ_reverse hi', take_succ_reverse hj']
      by_cases hc : s1[i] = s2[j]
      · rw [if_pos (by rw [hc]), if_pos hc]
      · rw [if_neg (by simpa using hc), if_neg hc]
        omega

/-- The text-matching `matrix[i][j]` (rows indexed by `b`, columns by `a`)
likewise computes the reference distance of the reversed prefixes; the
cost-based `Math.min` of this variant needs the one-step comparison facts
to collapse onto the diagonal when the characters agree. -/
theorem TextMatching.matrix_eq (a b : Str) :
    ∀ i j, i ≤ b.length → j ≤ a.length →
      TextMatching.matrix a b i j =
        lev ((a.take j).reverse) ((b.take i).reverse) := by
  intro i
  induction i with
  | zero =>
    intro j _ hj
    simp only [TextMatching.matrix, List.take_zero, List.reverse_nil, lev_nil_right]
    simp [Nat.min_eq_left hj]
  | succ i ihi =>
    intro j hi
    induction j with
    | zero =>
      intro _
      simp only [TextMatching.matrix, TextMatching.mRow, List.take_zero,
        List.reverse_nil, lev_nil_left]
      simp [Nat.min_eq_left hi]
    | succ j ihj =>
      intro hj
      have hi' : i < b.length := by omega
      have hj' : j < a.length := by omega
      have e1 := ihi j (by omega) (by omega)
      have e2 := ihi (j + 1) (by omega) hj
      have e3 := ihj (by omega)
      rw [take_succ_reverse hi', take_succ_reverse hj', lev_cons_cons]
      show TextMatching.mRow a b i (TextMatching.matrix a b i) (j + 1) = _
      rw [TextMatching.mRow]
      rw [List.getElem?_eq_getElem hi', List.getElem?_eq_getElem hj']
      have e3' : TextMatching.mRow a b i (TextMatching.matrix a b i) j =
          lev ((a.take j).reverse) ((b.take (i + 1)).reverse) := e3
      rw [e1, e2, e3']
      rw [take_succ_reverse hi', take_succ_reverse hj']
      by_cases hc : a[j] = b[i]
      · rw [if_pos (by rw [hc]), if_pos hc]
        have h1 := lev_le_ins (b[i]) ((a.take j).reverse) ((b.take i).reverse)
        have h2 := lev_le_del (a[j]) ((a.take j).reverse) ((b.take i).reverse)
        omega
      · rw [if_neg (by simpa using hc), if_neg hc]
        omega

/-- Both source implementations compute `lev` of the reversed arguments. -/
theorem DialogueManager.dpDistance_eq_lev_reverse (s1 s2 : Str) :
    DialogueManager.levenshteinDistance s1 s2 = lev s1.reverse s2.reverse := by
  rw [DialogueManager.levenshteinDistance,
    DialogueManager.dpTable_eq s1 s2 s1.length s2.length le_rfl le_rfl,
    List.take_length, List.take_length]

theorem TextMatching.matrixDistance_eq_lev_reverse (a b : Str) :
    TextMatching.levenshteinDistance a b = lev a.reverse b.reverse := by
  rw [TextMatching.levenshteinDistance,
    TextMatching.matrix_eq a b b.length a.length le_rfl le_rfl,
    List.take_length, List.take_length]

/-- An edit script substituting position by position and deleting or
inserting the overhang costs `max` of the lengths. -/
theorem edits_max : ∀ xs ys : Str, Edits xs ys (max xs.length ys.length) := by
  intro xs
  induction xs with
  | nil => intro ys; simpa using edits_nil_left ys
  | cons x xs ih =>
    intro ys
    cases ys with
    | nil => simpa using edits_nil_right (x :: xs)
    | cons y ys' =>
      have h := Edits.subst x y (ih ys')
      simpa [Nat.succ_max_succ] using h

theorem lev_le_max (xs ys : Str) : lev xs ys ≤ max xs.length ys.length :=
  lev_le_edits (edits_max xs ys)

theorem TextMatching.levenshteinDistance_le_max (a b : Str) :
    TextMatching.levenshteinDistance a b ≤ max a.length b.length := by
  rw [TextMatching.matrixDistance_eq_lev_reverse]
  simpa using lev_le_max a.reverse b.reverse

/-- C1.  For every pair of strings, `levenshteinDistance` — in both the
text-matching-module form and the `DialogueManager` method form, which
agree — satisfies the standard dynamic-programming recurrence
(`dp[i][0] = i`, `dp[0][j] = j`, diagonal when the characters at `i-1`,
`j-1` are equal, else `1 + min` of the three neighbours) and returns the
minimum number of single-character insertions, deletions and substitutions
transforming the first string into the second (`Edits`). -/
theorem levenshteinDistance_minimal (a b : Str) :
    Edits a b (TextMatching.levenshteinDistance a b) ∧
    (∀ n, Edits a b n → TextMatching.levenshteinDistance a b ≤ n) ∧
    DialogueManager.levenshteinDistance a b = TextMatching.levenshteinDistance a b ∧
    (∀ i, DialogueManager.dpTable a b i 0 = i) ∧
    (∀ j, DialogueManager.dpTable a b 0 j = j) ∧
    (∀ i j,
      DialogueManager.dpTable a b (i + 1) (j + 1) =
        if a[i]? = b[j]? then DialogueManager.dpTable a b i j
        else min (min (DialogueManager.dpTable a b i j + 1)
            (DialogueManager.dpTable a b i (j + 1) + 1))
          (DialogueManager.dpTable a b (i + 1) j + 1)) := by
  refine ⟨?_, ?_, ?_, ?_, ?_, ?_⟩
  · rw [TextMatching.matrixDistance_eq_lev_reverse]
    have h := (edits_of_lev _ a.reverse b.reverse rfl).rev
    simpa using h
  · intro n h
    rw [TextMatching.matrixDistance_eq_lev_reverse]
    exact lev_le_edits h.rev
  · rw [TextMatching.matrixDistance_eq_lev_reverse, DialogueManager.dpDistance_eq_lev_reverse]
  · intro i; cases i <;> rfl
  · intro j; rfl
  · intro i j; rfl

/-- C1 witness: a concrete edit-minimality instance, with the concrete
value checked by evaluation. -/
theorem levenshteinDistance_minimal_witness :
    Edits "cat".data "cut".data (TextMatching.levenshteinDistance "cat".data "cut".data) ∧
    TextMatching.levenshteinDistance "cat".data "cut".data = 1 :=
  ⟨(levenshteinDistance_minimal "cat".data "cut".data).1, by decide⟩

/-- C10.  The single-phrase match percentage is not clamped: for the
transcript `"xyzzz"` against the target `"ab"` the edit distance is 5,
which exceeds the target's length 2, so `handleSpeechInput` computes
`((2 - 5) / 2) * 100 = -150`, a strictly negative percentage, rounds it to
`-150` for display, and does not advance. -/
theorem matchPercentage_negative :
    DialogueManager.levenshteinDistance "xyzzz".data "ab".data = 5 ∧
    DialogueManager.matchPercentage "xyzzz".data "ab".data = -150 ∧
    DialogueManager.matchPercentage "xyzzz".data "ab".data < 0 ∧
    DialogueManager.displayedMatch "xyzzz".data "ab".data = -150 ∧
    DialogueManager.handleSpeechInput ⟨4, true⟩ "xyzzz".data "ab".data =
      (⟨4, true⟩, false) := by
  have hlow : "xyzzz".data.map Char.toLower = "xyzzz".data := by decide
  have htar : "ab".data.map Char.toLower = "ab".data := by decide
  have hd : DialogueManager.levenshteinDistance "xyzzz".data "ab".data = 5 := by decide
  have hlen : ("ab".data).length = 2 := by decide
  have hpct : DialogueManager.matchPercentage "xyzzz".data "ab".data = -150 := by
    rw [DialogueManager.matchPercentage]
    rw [hlow, htar, hd, hlen]
    norm_num
  refine ⟨hd, hpct, by rw [hpct]; norm_num, ?_, ?_⟩
  · rw [DialogueManager.displayedMatch, hpct]
    norm_num
  · rw [DialogueManager.handleSpeechInput, if_neg]
    rw [hpct]
    norm_num

theorem calculateSimilarity_bounds (s1 s2 : Str) :
    0 ≤ TextMatching.calculateSimilarity s1 s2 ∧
      TextMatching.calculateSimilarity s1 s2 ≤ 1 := by
  rw [TextMatching.calculateSimilarity]
  split_ifs with h1 h2
  · norm_num
  · norm_num
  · simp only [Bool.and_eq_true, beq_iff_eq, Bool.or_eq_true, not_or] at h1 h2
    have hm : 0 < max (TextMatching.normalize s1).length (TextMatching.normalize s2).length := by
      omega
    have hd := TextMatching.levenshteinDistance_le_max
      (TextMatching.normalize s1) (TextMatching.normalize s2)
    have hdiv1 :
        (TextMatching.levenshteinDistance (TextMatching.normalize s1)
            (TextMatching.normalize s2) : ℚ) /
          ((max (TextMatching.normalize s1).length (TextMatching.normalize s2).length : Nat) : ℚ)
          ≤ 1 := by
      rw [div_le_one (by exact_mod_cast hm)]
      exact_mod_cast hd
    have hdiv0 :
        (0 : ℚ) ≤
          (TextMatching.levenshteinDistance (TextMatching.normalize s1)
            (TextMatching.normalize s2) : ℚ) /
          ((max (TextMatching.normalize s1).length (TextMatching.normalize s2).length : Nat) : ℚ) :=
      div_nonneg (by positivity) (by positivity)
    constructor <;> linarith

theorem combinedScores_mem_bounds (inp : Str) (options : List Str) :
    ∀ s ∈ TextMatching.combinedScores inp options, 0 ≤ s ∧ s ≤ 1 := by
  intro s hs
  rw [TextMatching.combinedScores] at hs
  obtain ⟨option, -, rfl⟩ := List.mem_map.mp hs
  have hb := calculateSimilarity_bounds inp option
  dsimp only
  split_ifs with hc
  · refine ⟨le_min ?_ (by norm_num), min_le_right _ _⟩
    have hboost : (0 : ℚ) ≤ (TextMatching.matchCountFor inp option : ℚ) * (1 / 10) := by
      positivity
    linarith [hb.1]
  · exact hb

theorem combinedScores_eq_min (inp : Str) (options : List Str) :
    TextMatching.combinedScores inp options =
      options.map (fun option =>
        min (TextMatching.calculateSimilarity inp option +
          (TextMatching.matchCountFor inp option : ℚ) * (1 / 10)) 1) := by
  rw [TextMatching.combinedScores]
  apply List.map_congr_left
  intro option _
  dsimp only
  split_ifs with hc
  · rfl
  · have hzero : TextMatching.matchCountFor inp option = 0 := by omega
    rw [hzero]
    rw [Nat.cast_zero, zero_mul, add_zero,
      min_eq_left (calculateSimilarity_bounds inp option).2]

theorem foldl_bestStep_score_le (ps : List (Nat × ℚ)) :
    ∀ acc : Int × ℚ, acc.2 ≤ 1 → (∀ p ∈ ps, p.2 ≤ 1) →
      (List.foldl TextMatching.bestStep acc ps).2 ≤ 1 := by
  induction ps with
  | nil => intro acc h _; simpa using h
  | cons p ps ih =>
    intro acc hacc hall
    rw [List.foldl_cons]
    apply ih
    · rw [TextMatching.bestStep]
      split_ifs
      · exact hall p (by simp)
      · exact hacc
    · intro q hq
      exact hall q (by simp [hq])

theorem foldl_bestStep_index_bounds (n : Nat) :
    ∀ (ps : List (Nat × ℚ)) (acc : Int × ℚ),
      (∀ p ∈ ps, p.1 < n) → 0 ≤ acc.1 → acc.1 < (n : Int) →
      0 ≤ (List.foldl TextMatching.bestStep acc ps).1 ∧
        (List.foldl TextMatching.bestStep acc ps).1 < (n : Int) := by
  intro ps
  induction ps with
  | nil => intro acc _ h0 h1; simpa using ⟨h0, h1⟩
  | cons p ps ih =>
    intro acc hall h0 h1
    rw [List.foldl_cons]
    apply ih
    · intro q hq
      exact hall q (by simp [hq])
    · rw [TextMatching.bestStep]
      split_ifs
      · simp
      · exact h0
    · rw [TextMatching.bestStep]
      split_ifs
      · have := hall p (by simp)
        simp only []
        exact_mod_cast this
      · exact h1

theorem enumFrom_fst_lt {α : Type} {p : Nat × α} {k : Nat} {l : List α}
    (h : p ∈ List.enumFrom k l) : p.1 < k + l.length := by
  obtain ⟨i, x⟩ := p
  exact (List.mem_enumFrom h).2.1

theorem enumFrom_snd_mem {α : Type} {p : Nat × α} {k : Nat} {l : List α}
    (h : p ∈ List.enumFrom k l) : p.2 ∈ l := by
  obtain ⟨i, x⟩ := p
  have hh := List.mem_enumFrom h
  rw [hh.2.2]
  exact List.getElem_mem _

/-- C4.  Each option's combined score is the base similarity plus
`0.1` per matching word, capped at `1.0`; hence every combined score, and
the score `findBestMatch` returns, never exceeds `1.0`. -/
theorem combined_score_capped :
    (∀ (inp : Str) (options : List Str),
        TextMatching.combinedScores inp options =
          options.map (fun option =>
            min (TextMatching.calculateSimilarity inp option +
              (TextMatching.matchCountFor inp option : ℚ) * (1 / 10)) 1)) ∧
    (∀ (inp : Str) (options : List Str) (i : Nat),
        0 ≤ (TextMatching.combinedScores inp options).getD i 0 ∧
          (TextMatching.combinedScores inp options).getD i 0 ≤ 1) ∧
    (∀ (input : Option Str) (options : List Str),
        (TextMatching.findBestMatch input options).score ≤ 1) := by
  refine ⟨combinedScores_eq_min, ?_, ?_⟩
  · intro inp options i
    rw [List.getD_eq_getElem?_getD]
    rcases hg : (TextMatching.combinedScores inp options)[i]? with _ | s
    · norm_num
    · obtain ⟨hi, hs⟩ := List.getElem?_eq_some.mp hg
      have hmem : s ∈ TextMatching.combinedScores inp options := by
        rw [← hs]; exact List.getElem_mem _
      simpa using combinedScores_mem_bounds inp options s hmem
  · intro input options
    match input with
    | none => rw [TextMatching.findBestMatch]; norm_num
    | some inp =>
      rw [TextMatching.findBestMatch]
      split_ifs with hg
      · norm_num
      · dsimp only
        rw [TextMatching.bestLoop]
        apply foldl_bestStep_score_le
        · norm_num
        · intro p hp
          have hmem : p.2 ∈ TextMatching.combinedScores inp options :=
            enumFrom_snd_mem (by simpa [List.enum] using hp)
          exact (combinedScores_mem_bounds inp options p.2 hmem).2

theorem bestLoop_index_bounds (q : ℚ) (qs : List ℚ) (hq : 0 ≤ q) :
    0 ≤ (TextMatching.bestLoop (q :: qs)).1 ∧
      (TextMatching.bestLoop (q :: qs)).1 < ((q :: qs).length : Int) := by
  rw [TextMatching.bestLoop]
  have henum : List.enum (q :: qs) = (0, q) :: List.enumFrom 1 qs := rfl
  rw [henum, List.foldl_cons]
  have hstep : TextMatching.bestStep (-1, -1) (0, q) = (((0 : Nat) : Int), q) := by
    rw [TextMatching.bestStep, if_pos]
    exact lt_of_lt_of_le (by norm_num) hq
  rw [hstep]
  apply foldl_bestStep_index_bounds
  · intro p hp
    have := enumFrom_fst_lt hp
    simp only [List.length_cons]
    omega
  · simp
  · simp

/-- C9.  For every non-empty transcript and non-empty option list (written
as `c :: cs` and `o :: os`), `findBestMatch` returns an index with
`0 ≤ index < options.length` — never `-1` — and its returned text is the
option at that index, so the caller's `options[bestMatch.index]` access in
`processUserResponse` is in bounds; rejection happens only via the
caller's threshold test. -/
theorem findBestMatch_index_bounds (c : Char) (cs : Str) (o : Str) (os : List Str) :
    0 ≤ (TextMatching.findBestMatch (some (c :: cs)) (o :: os)).index ∧
    (TextMatching.findBestMatch (some (c :: cs)) (o :: os)).index < ((o :: os).length : Int) ∧
    (TextMatching.findBestMatch (some (c :: cs)) (o :: os)).index ≠ -1 ∧
    (TextMatching.findBestMatch (some (c :: cs)) (o :: os)).text =
      (o :: os).getD
        (TextMatching.findBestMatch (some (c :: cs)) (o :: os)).index.toNat [] := by
  have hqs : ∃ q qs, TextMatching.combinedScores (c :: cs) (o :: os) = q :: qs ∧
      0 ≤ q ∧ (q :: qs).length = (o :: os).length := by
    rw [TextMatching.combinedScores, List.map_cons]
    refine ⟨_, _, rfl, ?_, by simp⟩
    have hmem : (fun option =>
        let score := TextMatching.calculateSimilarity (c :: cs) option
        let c' := TextMatching.matchCountFor (c :: cs) option
        if 0 < c' then min (score + (c' : ℚ) * (1 / 10)) 1 else score) o ∈
        TextMatching.combinedScores (c :: cs) (o :: os) := by
      rw [TextMatching.combinedScores, List.map_cons]
      exact List.mem_cons_self _ _
    exact (combinedScores_mem_bounds _ _ _ hmem).1
  obtain ⟨q, qs, hc, hq, hlen⟩ := hqs
  have hbounds := bestLoop_index_bounds q qs hq
  rw [hlen] at hbounds
  rw [TextMatching.findBestMatch, if_neg (by simp)]
  dsimp only
  rw [hc]
  refine ⟨hbounds.1, hbounds.2, ?_, ?_⟩
  · intro hcon
    rw [hcon] at hbounds
    exact absurd hbounds.1 (by norm_num)
  · rw [if_pos hbounds.1]

/-- C3.  `findBestMatch` degrades to index `-1`, score `0`, empty text on
a null input, an empty transcript, or an empty option list; as a total
function of its embedded inputs it never raises. -/
theorem findBestMatch_degrades :
    (∀ options, TextMatching.findBestMatch none options = ⟨[], -1, 0⟩) ∧
    (∀ options, TextMatching.findBestMatch (some []) options = ⟨[], -1, 0⟩) ∧
    (∀ input, TextMatching.findBestMatch input [] = ⟨[], -1, 0⟩) := by
  refine ⟨fun options => rfl, fun options => rfl, ?_⟩
  intro input
  match input with
  | none => rfl
  | some inp => rw [TextMatching.findBestMatch, if_pos (by simp)]

theorem calculateSimilarity_abcxy :
    TextMatching.calculateSimilarity "abcxy".data "abcde".data = 3 / 5 := by
  have hn1 : TextMatching.normalize "abcxy".data = "abcxy".data := by decide
  have hn2 : TextMatching.normalize "abcde".data = "abcde".data := by decide
  have hd : TextMatching.levenshteinDistance "abcxy".data "abcde".data = 2 := by decide
  have hm : max ("abcxy".data).length ("abcde".data).length = 5 := by decide
  simp only [TextMatching.calculateSimilarity, hn1, hn2]
  rw [if_neg (by decide), if_neg (by decide), hd, hm]
  norm_num

theorem calculateSimilarity_abcdefghij :
    TextMatching.calculateSimilarity "abcdefghij".data "abcde".data = 1 / 2 := by
  have hn1 : TextMatching.normalize "abcdefghij".data = "abcdefghij".data := by decide
  have hn2 : TextMatching.normalize "abcde".data = "abcde".data := by decide
  have hd : TextMatching.levenshteinDistance "abcdefghij".data "abcde".data = 5 := by decide
  have hm : max ("abcdefghij".data).length ("abcde".data).length = 10 := by decide
  simp only [TextMatching.calculateSimilarity, hn1, hn2]
  rw [if_neg (by decide), if_neg (by decide), hd, hm]
  norm_num

theorem findBestMatch_abcxy :
    TextMatching.findBestMatch (some "abcxy".data) ["abcde".data] =
      ⟨"abcde".data, 0, 3 / 5⟩ := by
  have hcount : TextMatching.matchCountFor "abcxy".data "abcde".data = 0 := by decide
  have hcs : TextMatching.combinedScores "abcxy".data ["abcde".data] = [3 / 5] := by
    rw [TextMatching.combinedScores, List.map_cons, List.map_nil]
    dsimp only
    rw [hcount, if_neg (by norm_num), calculateSimilarity_abcxy]
  have hbl : TextMatching.bestLoop [(3 : ℚ) / 5] = (0, 3 / 5) := by
    have henum : List.enum [(3 : ℚ) / 5] = [(0, 3 / 5)] := rfl
    rw [TextMatching.bestLoop, henum, List.foldl_cons, List.foldl_nil]
    rw [TextMatching.bestStep, if_pos (by norm_num)]
    norm_num
  rw [TextMatching.findBestMatch, if_neg (by decide)]
  dsimp only
  rw [hcs, hbl]
  rw [if_pos (by norm_num)]
  rfl

/-- C2 counterexample.  The two flows do not apply the threshold with the
same comparison or the same normalization.  At transcript `"abcxy"`
against phrase/option `"abcde"` both similarity measures equal exactly
60% (score 3/5): the single-phrase flow advances (`>= 60`), while the
multi-option flow rejects, because its test is strict (`> 0.6`) — so the
multi-option flow does *not* accept exactly when its combined score
reaches the threshold.  And at transcript `"abcdefghij"` against target
`"abcde"` the single-phrase flow computes 0% (denominator = target
length) while the multi-option base similarity is 1/2 (denominator = max
length): the two normalizations disagree. -/
theorem match_threshold_counterexample :
    DialogueManager.matchPercentage "abcxy".data "abcde".data = 60 ∧
    (DialogueManager.handleSpeechInput ⟨0, true⟩ "abcxy".data "abcde".data).2 = true ∧
    (TextMatching.findBestMatch (some "abcxy".data) ["abcde".data]).score = 3 / 5 ∧
    ((0.6 : ℚ) ≤ (TextMatching.findBestMatch (some "abcxy".data) ["abcde".data]).score) ∧
    DialogueSystem.processUserResponse ⟨"q".data, [⟨"abcde".data, "next1"⟩]⟩
      "abcxy".data = none ∧
    DialogueManager.matchPercentage "abcdefghij".data "abcde".data = 0 ∧
    TextMatching.calculateSimilarity "abcdefghij".data "abcde".data = 1 / 2 := by
  have hlow1 : "abcxy".data.map Char.toLower = "abcxy".data := by decide
  have hlow2 : "abcde".data.map Char.toLower = "abcde".data := by decide
  have hlow3 : "abcdefghij".data.map Char.toLower = "abcdefghij".data := by decide
  have hd1 : DialogueManager.levenshteinDistance "abcxy".data "abcde".data = 2 := by
    decide
  have hd2 : DialogueManager.levenshteinDistance "abcdefghij".data "abcde".data = 5 := by
    decide
  have hlen : ("abcde".data).length = 5 := by decide
  have hpct1 : DialogueManager.matchPercentage "abcxy".data "abcde".data = 60 := by
    rw [DialogueManager.matchPercentage]
    rw [hlow1, hlow2, hd1, hlen]
    norm_num
  have hpct2 : DialogueManager.matchPercentage "abcdefghij".data "abcde".data = 0 := by
    rw [DialogueManager.matchPercentage]
    rw [hlow3, hlow2, hd2, hlen]
    norm_num
  refine ⟨hpct1, ?_, ?_, ?_, ?_, hpct2, calculateSimilarity_abcdefghij⟩
  · rw [DialogueManager.handleSpeechInput, if_pos (by rw [hpct1])]
  · rw [findBestMatch_abcxy]
  · rw [findBestMatch_abcxy]
    norm_num
  · rw [DialogueSystem.processUserResponse, if_neg (by decide)]
    dsimp only
    have hopts : ((⟨"q".data, [⟨"abcde".data, "next1"⟩]⟩ :
        DialogueSystem.DialogueNode).options.map (·.text)) = ["abcde".data] := rfl
    rw [hopts, findBestMatch_abcxy]
    rw [if_neg (by norm_num)]

/-- C2 amended.  Both flows use the 60% constant, but not uniformly: the
single-phrase flow advances exactly when
`((len(target) - distance) / len(target)) * 100 >= 60` (inclusive
comparison, lower-cased only, normalized by the target's length), while
the multi-option flow accepts exactly when its combined score is
*strictly* greater than `0.6` (similarity normalized by the max length of
the lower-cased, punctuation-stripped strings, plus the word boost); on
acceptance the transition goes to the best-matching option's `next`. -/
theorem match_threshold_amended :
    (∀ (s : DialogueManager.DMState) (transcript target : Str),
        (DialogueManager.handleSpeechInput s transcript target).2 = true ↔
          60 ≤ DialogueManager.matchPercentage transcript target) ∧
    (∀ (dialogue : DialogueSystem.DialogueNode) (transcript : Str),
        (DialogueSystem.processUserResponse dialogue transcript).isSome ↔
          (¬ dialogue.options.isEmpty = true ∧
            (0.6 : ℚ) <
              (TextMatching.findBestMatch (some transcript)
                (dialogue.options.map (·.text))).score)) ∧
    (∀ (dialogue : DialogueSystem.DialogueNode) (transcript : Str) (next : String),
        DialogueSystem.processUserResponse dialogue transcript = some next →
          next = (dialogue.options.getD
            (TextMatching.findBestMatch (some transcript)
              (dialogue.options.map (·.text))).index.toNat ⟨[], ""⟩).next) := by
  refine ⟨?_, ?_, ?_⟩
  · intro s transcript target
    rw [DialogueManager.handleSpeechInput]
    split_ifs with h
    · simpa using h
    · simpa using h
  · intro dialogue transcript
    rw [DialogueSystem.processUserResponse]
    dsimp only
    split_ifs with h1 h2
    · simp [h1]
    · simp [h1, h2]
    · simp [h1, h2]
  · intro dialogue transcript next
    rw [DialogueSystem.processUserResponse]
    dsimp only
    split_ifs with h1 h2
    · intro heq; exact absurd heq (by simp)
    · intro heq
      injection heq with h
      exact h.symm
    · intro heq; exact absurd heq (by simp)

/-- C5 counterexample.  At the even step index 0 (with a non-empty loaded
dialogue) `showNextStep` waits for the player's utterance — `isUserTurn`
is `currentStep % 2 === 0` — so an even index is a *player* turn, not an
automatic non-player line as the claim states. -/
theorem turn_parity_counterexample :
    DialogueManagerV2.isUserTurn 0 = true ∧
    DialogueManagerV2.showNextStepAction
      ⟨[⟨"hola".data, "hello".data⟩], 0, [], false, none⟩ =
      DialogueManagerV2.StepAction.awaitUser ∧
    DialogueManagerV2.showNextStepAction
      ⟨[⟨"hola".data, "hello".data⟩], 0, [], false, none⟩ ≠
      DialogueManagerV2.StepAction.autoPlay := by
  refine ⟨rfl, by decide, by decide⟩

/-- C5 amended.  Turn parity is a pure function of the step index, but
with the roles swapped relative to the claim: an even index means the
player must supply a matching utterance (`awaitUser`), an odd index means
the non-player character delivers the line automatically (`autoPlay`),
independently of all other manager state. -/
theorem turn_parity_amended :
    ∀ (hist : List DialogueManagerV2.DialogueEntry) (boxes : List Nat)
      (listening : Bool) (phrase : Option Str) (k : Nat),
      (DialogueManagerV2.showNextStepAction ⟨hist, 2 * k, boxes, listening, phrase⟩ =
        if 2 * k < hist.length then DialogueManagerV2.StepAction.awaitUser
        else DialogueManagerV2.StepAction.completed) ∧
      (DialogueManagerV2.showNextStepAction ⟨hist, 2 * k + 1, boxes, listening, phrase⟩ =
        if 2 * k + 1 < hist.length then DialogueManagerV2.StepAction.autoPlay
        else DialogueManagerV2.StepAction.completed) ∧
      DialogueManagerV2.isUserTurn (2 * k) = true ∧
      DialogueManagerV2.isUserTurn (2 * k + 1) = false := by
  intro hist boxes listening phrase k
  have heven : (2 * k) % 2 = 0 := by omega
  have hodd : (2 * k + 1) % 2 = 1 := by omega
  refine ⟨?_, ?_, ?_, ?_⟩
  · rw [DialogueManagerV2.showNextStepAction]
    dsimp only
    by_cases h : 2 * k < hist.length
    · rw [if_neg (by omega), if_pos (by simp [heven]), if_pos h]
    · rw [if_pos (by omega), if_neg h]
  · rw [DialogueManagerV2.showNextStepAction]
    dsimp only
    by_cases h : 2 * k + 1 < hist.length
    · rw [if_neg (by omega), if_neg (by simp [hodd]), if_pos h]
    · rw [if_pos (by omega), if_neg h]
  · simp [DialogueManagerV2.isUserTurn, heven]
  · simp [DialogueManagerV2.isUserTurn, hodd]

/-- C6 counterexample.  An `'aborted'` recognition error while listening
does not schedule a restart (the handler's condition excludes it), even
though `'no-speech'` does — refuting that both transient errors trigger
an automatic restart. -/
theorem error_restart_counterexample :
    SpeechRecognition.onErrorSchedulesRestart "aborted" true = false ∧
    SpeechRecognition.onErrorSchedulesRestart "no-speech" true = true := by
  constructor <;> rfl

/-- C6 amended.  The `onerror` handler schedules an automatic restart
exactly when the error is neither `'aborted'` nor `'not-allowed'` and the
session is still flagged as listening: `'no-speech'` and `'network'`
errors restart, `'aborted'` and `'not-allowed'` never do. -/
theorem error_restart_amended :
    (∀ listening : Bool,
      SpeechRecognition.onErrorSchedulesRestart "no-speech" listening = listening ∧
      SpeechRecognition.onErrorSchedulesRestart "network" listening = listening ∧
      SpeechRecognition.onErrorSchedulesRestart "aborted" listening = false ∧
      SpeechRecognition.onErrorSchedulesRestart "not-allowed" listening = false) ∧
    (∀ (error : String) (listening : Bool),
      SpeechRecognition.onErrorSchedulesRestart error listening = true ↔
        (error ≠ "aborted" ∧ error ≠ "not-allowed" ∧ listening = true)) := by
  constructor
  · intro listening
    cases listening <;> exact ⟨rfl, rfl, rfl, rfl⟩
  · intro error listening
    rw [SpeechRecognition.onErrorSchedulesRestart]
    simp [Bool.and_eq_true, bne_iff_ne, and_assoc]

/-- C7.  Starting a dialogue while the dialogue cooldown is active is a
no-op: for every game and dialogue-system state whose cooldown flag is
set, every character and every proximity outcome, `startDialogue` returns
the state unchanged — no session is created and no flag, active
character or step changes. -/
theorem startDialogue_cooldown_noop :
    ∀ (s : DialogueSystem.SystemState) (charId : String) (close : Bool),
      DialogueSystem.startDialogue
        { s with gameState := { s.gameState with dialogueCooldown := true } }
        charId close =
        { s with gameState := { s.gameState with dialogueCooldown := true } } := by
  intro s charId close
  rw [DialogueSystem.startDialogue, if_pos rfl]

/-- C8.  Rewinding via the return control to the box at position `i`
(holding step `t`): the box list is truncated to end exactly at that box,
the current step becomes `t`, the loaded dialogue is untouched,
recognition is re-activated precisely when `t` is a player-input (even)
step with a loaded history entry, and in that case the target phrase of
step `t` is restored. -/
theorem handleReturnClick_truncates :
    ∀ (s : DialogueManagerV2.ManagerState) (i t : Nat),
      s.dialogueBoxes[i]? = some t →
      (DialogueManagerV2.handleReturnClick s i).dialogueBoxes =
        s.dialogueBoxes.take (i + 1) ∧
      (DialogueManagerV2.handleReturnClick s i).currentStep = t ∧
      (DialogueManagerV2.handleReturnClick s i).dialogueHistory = s.dialogueHistory ∧
      ((DialogueManagerV2.handleReturnClick s i).isListening = true ↔
        (t % 2 = 0 ∧ t < s.dialogueHistory.length)) ∧
      (∀ item, s.dialogueHistory[t]? = some item → t % 2 = 0 →
        (DialogueManagerV2.handleReturnClick s i).currentTargetPhrase =
          some item.targetPhrase) := by
  intro s i t hbox
  rw [DialogueManagerV2.handleReturnClick]
  simp only [hbox]
  by_cases ht : t % 2 = 0
  · rw [if_pos (by simp [DialogueManagerV2.isUserTurn, ht])]
    rcases hh : s.dialogueHistory[t]? with _ | item
    · have hlen : ¬ t < s.dialogueHistory.length := by
        intro hcon
        rw [List.getElem?_eq_getElem hcon] at hh
        exact absurd hh (by simp)
      refine ⟨rfl, rfl, rfl, by simp [hlen], ?_⟩
      intro item hitem _
      exact absurd hitem (by simp)
    · have hlen : t < s.dialogueHistory.length := by
        rcases List.getElem?_eq_some.mp hh with ⟨hl, -⟩
        exact hl
      refine ⟨rfl, rfl, rfl, by simp [ht, hlen], ?_⟩
      intro item' hitem _
      injection hitem with he
      subst he
      rfl
  · rw [if_neg (by simp [DialogueManagerV2.isUserTurn, ht])]
    refine ⟨rfl, rfl, rfl, by simp [ht], ?_⟩
    intro item _ hcon
    exact absurd hcon ht

/-- C8 witness: a one-entry dialogue rewound to its first (player-turn)
box: the step history is truncated to that box, the step is restored and
recognition is re-activated. -/
theorem handleReturnClick_truncates_witness :
    (DialogueManagerV2.handleReturnClick
        ⟨[⟨"hola".data, "hello".data⟩], 1, [0], false, none⟩ 0).dialogueBoxes =
      [0].take (0 + 1) ∧
    (DialogueManagerV2.handleReturnClick
        ⟨[⟨"hola".data, "hello".data⟩], 1, [0], false, none⟩ 0).currentStep = 0 ∧
    (DialogueManagerV2.handleReturnClick
        ⟨[⟨"hola".data, "hello".data⟩], 1, [0], false, none⟩ 0).isListening = true :=
  ⟨(handleReturnClick_truncates
      ⟨[⟨"hola".data, "hello".data⟩], 1, [0], false, none⟩ 0 0 (by decide)).1,
    (handleReturnClick_truncates
      ⟨[⟨"hola".data, "hello".data⟩], 1, [0], false, none⟩ 0 0 (by decide)).2.1,
    (handleReturnClick_truncates
      ⟨[⟨"hola".data, "hello".data⟩], 1, [0], false, none⟩ 0 0 (by decide)).2.2.2.1.mpr
      (by decide)⟩

end SLL
